import Mathlib

/-
  Verification development for SCMContributorCount (src/main.py).

  Shallow embedding conventions:
  - HTTP responses are modelled by their status code and, where the code
    reads them, their text body and JSON item list.
  - The urllib3 `Retry(total=5, backoff_factor=1, status_forcelist=[429,502,503,504])`
    policy installed on the requests session (GitLabClient.__init__, lines 58-65)
    is modelled by `sessionGetAux`: a request whose status is in the forcelist is
    retried while retries remain; a failing request with no retries left raises
    RetryError (modelled as `SessionOutcome.retryError`).  `total=5` allows 5
    retries after the initial request.  Backoff delays follow urllib3's
    get_backoff_time with backoff_factor 1: min(BACKOFF_MAX, 2^(r-1)) before
    retry r.
  - `GitLabClient.paginate` (lines 80-96) walks the chain of pages linked by the
    `next` response-header links.  A server is a list of fetch outcomes: the
    k-th entry is what the k-th request yields, `Except.error ()` when the
    session raises (retries exhausted; the exception is NOT caught in paginate),
    `Except.ok page` when a response arrives.  The convention is that every page
    except the last in the list carries a `next` link, the last does not; the
    loop therefore ends after consuming the whole list, or earlier on a non-200
    status (logged and `break`: the items collected so far are returned).
  - `get_recent_committers` (lines 116-150) has its own loop with an extra
    zero-items break; Python set semantics for the e-mail set are modelled with
    `Finset String`; the Python truthiness test `commit.get('author_email')`
    skips both a missing and an empty e-mail.
  - The `fetch_contributors` branch of `main` (lines 279-313) is embedded as
    `fetch_contributors`, with Python dicts modelled as insertion-ordered
    association lists (`Dict`) whose `dictInsert` overwrites an existing key in
    place and appends a new key, exactly as a Python dict does.  The set
    iteration order of a project's committer set is an input list.
  - `main`'s sequencing of credential lookups versus network calls is embedded
    as the event trace `mainEvents`; each GitLab API operation contributes one
    `Ev.net` event, and a credential missing from both the environment and
    config.ini contributes `Ev.cfgError` (the raised ValueError).  Python's
    `os.environ.get(K) or get_config(sec, key)` treats an empty-string
    environment value as falsy; `envOrConfig` reproduces this.
-/

namespace SCMCount

/-- Retry(status_forcelist=[429, 502, 503, 504]) in GitLabClient.__init__. -/
def statusForcelist : List Nat := [429, 502, 503, 504]

/-- Retry(total=5): number of retries allowed after the initial request. -/
def retryTotal : Nat := 5

/-- urllib3 Retry.DEFAULT_BACKOFF_MAX. -/
def BACKOFF_MAX : Nat := 120

/-- Retry(backoff_factor=1). -/
def backoffFactor : Nat := 1

/-- Backoff delay slept before retry number r (r is 1-based):
urllib3 get_backoff_time with backoff_factor 1, capped at BACKOFF_MAX. -/
def backoffDelay (r : Nat) : Nat := min BACKOFF_MAX (backoffFactor * 2 ^ (r - 1))

/-- Outcome of session.get under the mounted retry adapter: either a delivered
response (status, body) or a raised RetryError after retries are exhausted. -/
inductive SessionOutcome where
  | response (status : Nat) (body : String)
  | retryError
deriving DecidableEq

/-- One session.get: `responses k` is the status/body the server would return to
the (i+k)-th request.  First component: the outcome; second: how many HTTP
requests were actually made.  A retryable status consumes one retry; a
retryable status with no retries left raises RetryError (urllib3 increments
past zero and raises MaxRetryError). -/
def sessionGetAux (responses : Nat → Nat × String) : Nat → Nat → SessionOutcome × Nat
  | 0, i =>
    if (responses i).1 ∈ statusForcelist then (SessionOutcome.retryError, 1)
    else (SessionOutcome.response (responses i).1 (responses i).2, 1)
  | r + 1, i =>
    if (responses i).1 ∈ statusForcelist then
      ((sessionGetAux responses r (i + 1)).1, (sessionGetAux responses r (i + 1)).2 + 1)
    else (SessionOutcome.response (responses i).1 (responses i).2, 1)

/-- self.session.get with the retry policy of GitLabClient.__init__. -/
def sessionGet (responses : Nat → Nat × String) : SessionOutcome × Nat :=
  sessionGetAux responses retryTotal 0

/-- requests' Response.raise_for_status raises for 4xx and 5xx statuses. -/
def raiseForStatus (s : Nat) : Bool := 400 ≤ s && s < 600

/-- GitLabClient.get (lines 67-78): performs one session.get, calls
raise_for_status, and catches every RequestException, logging it and returning
None.  So a raised RetryError and any 4xx/5xx response both become `none`; the
status code and body are not propagated to the caller. -/
def GitLabClient.get (outcome : SessionOutcome) : Option (Nat × String) :=
  match outcome with
  | SessionOutcome.retryError => none
  | SessionOutcome.response s b => if raiseForStatus s then none else some (s, b)

/-- One page of a paginated response: status code, response text, JSON items.
`α` is the item type (the code treats items opaquely while paginating). -/
structure Page (α : Type) where
  status : Nat
  text : String
  items : List α
deriving DecidableEq

/-- Loop body of GitLabClient.paginate (lines 86-96).  The input list is the
chain of fetch outcomes in next-link order (every page but the last carries a
next link).  `Except.error ()` is a session.get that raised (retries
exhausted); paginate has no try/except, so the exception propagates and the
accumulated results are lost.  A non-200 response is logged and `break`s,
returning the results accumulated so far.  A 200 response has its items
appended; the loop continues while a next link exists. -/
def paginateAux {α : Type} : List (Except Unit (Page α)) → List α → Except Unit (List α)
  | [], acc => Except.ok acc
  | Except.error _ :: _, _ => Except.error ()
  | Except.ok p :: rest, acc =>
    if p.status = 200 then paginateAux rest (acc ++ p.items) else Except.ok acc

/-- GitLabClient.paginate (lines 80-96): starts with an empty result list. -/
def paginate {α : Type} (pages : List (Except Unit (Page α))) : Except Unit (List α) :=
  paginateAux pages []

/-- A commit as read by get_recent_committers: only `author_email` is used,
absent when the JSON has no such key. -/
structure Commit where
  author_email : Option String
deriving DecidableEq

/-- One page of /repository/commits responses. -/
structure CommitPage where
  status : Nat
  commits : List Commit
deriving DecidableEq

/-- Lines 143-145: add `commit['author_email']` for every commit where
`commit.get('author_email')` is truthy (present and non-empty). -/
def addCommitEmails (acc : Finset String) (commits : List Commit) : Finset String :=
  commits.foldl
    (fun a c =>
      match c.author_email with
      | some e => if e.isEmpty then a else insert e a
      | none => a)
    acc

/-- Loop of get_recent_committers (lines 135-149): same chained-page convention
as paginateAux, but with two extra behaviours: a page with zero commits breaks
the loop, and a non-200 status breaks returning the set collected so far. -/
def getRecentCommittersAux : List CommitPage → Finset String → Finset String
  | [], acc => acc
  | p :: rest, acc =>
    if p.status = 200 then
      if p.commits.isEmpty then acc
      else getRecentCommittersAux rest (addCommitEmails acc p.commits)
    else acc

/-- GitLabClient.get_recent_committers (lines 116-150): starts from the empty
set of e-mails. -/
def get_recent_committers (pages : List CommitPage) : Finset String :=
  getRecentCommittersAux pages ∅

/-- A value stored in a per-project contributor dict: either the role record
`{"role": "Active Contributor (last 90 days)"}` stored under an e-mail key, or
the integer stored under the "unique_contributors" key (line 302). -/
inductive ContribValue where
  | role (r : String)
  | count (n : Nat)
deriving DecidableEq

/-- A Python dict with string keys, as an insertion-ordered association list. -/
abbrev Dict (V : Type) : Type := List (String × V)

/-- `d[k] = v` on a Python dict: an existing key keeps its position and gets
the new value; a new key is appended at the end. -/
def dictInsert {V : Type} (m : Dict V) (k : String) (v : V) : Dict V :=
  if m.any (fun p => p.1 = k) then
    m.map (fun p => if p.1 = k then (k, v) else p)
  else m ++ [(k, v)]

/-- The keys of a dict, in insertion order. -/
def dictKeys {V : Type} (m : Dict V) : List String := m.map Prod.fst

/-- `d.get(k)` / `d[k]` lookup on a Python dict. -/
def dictLookup {V : Type} (m : Dict V) (k : String) : Option V :=
  match m with
  | [] => none
  | p :: rest => if p.1 = k then some p.2 else dictLookup rest k

/-- The role string written for every committer (lines 296-298). -/
def activeRole : String := "Active Contributor (last 90 days)"

/-- State of the per-project aggregation loop in the fetch_contributors branch:
`project_contributors` and `unique_proj_contributors` are reset per project,
`unique_users` is the run-wide set. -/
structure ProjAccum where
  project_contributors : Dict ContribValue
  unique_proj_contributors : Nat
  unique_users : Finset String

/-- Body of `for email in recent_committers:` (lines 295-302): store the role
record under the e-mail, add the e-mail to the run-wide unique set, increment
the per-project counter, and store the counter in the same dict under the
"unique_contributors" key. -/
def insertCommitter (s : ProjAccum) (email : String) : ProjAccum :=
  { project_contributors :=
      dictInsert (dictInsert s.project_contributors email (ContribValue.role activeRole))
        "unique_contributors" (ContribValue.count (s.unique_proj_contributors + 1))
    unique_proj_contributors := s.unique_proj_contributors + 1
    unique_users := insert email s.unique_users }

/-- Per-project aggregation (lines 293-302): fold the committer iteration list
through `insertCommitter`, starting from an empty dict and a zero counter;
returns the project's contributor dict and the updated unique set. -/
def processProject (uu : Finset String) (emails : List String) :
    Dict ContribValue × Finset String :=
  ((emails.foldl insertCommitter ⟨[], 0, uu⟩).project_contributors,
   (emails.foldl insertCommitter ⟨[], 0, uu⟩).unique_users)

/-- A project as kept in `all_projects` (lines 246-250): id and
path_with_namespace. -/
structure Project where
  id : Nat
  name : String
deriving DecidableEq

/-- The `final_output` dict (lines 309-313). -/
structure FetchOutput where
  projects : Dict (Dict ContribValue)
  unique_user_emails : Finset String
  total_users : Nat

/-- The `for project in all_projects:` loop (lines 283-306).  `committers pr`
is the iteration order of gitlab_client.get_recent_committers(pr)'s result set.
A project with an empty committer set gets no project_data entry (the
`if recent_committers:` test, line 291). -/
def fetchContributorsAux (committers : Nat → List String) :
    List Project → Dict (Dict ContribValue) → Finset String →
    Dict (Dict ContribValue) × Finset String
  | [], pd, uu => (pd, uu)
  | pr :: rest, pd, uu =>
    if (committers pr.id).isEmpty then fetchContributorsAux committers rest pd uu
    else
      fetchContributorsAux committers rest
        (dictInsert pd pr.name (processProject uu (committers pr.id)).1)
        (processProject uu (committers pr.id)).2

/-- The fetch_contributors action of main (lines 279-313): aggregate all
projects and report `total_users = len(unique_users)`. -/
def fetch_contributors (allProjects : List Project) (committers : Nat → List String) :
    FetchOutput :=
  { projects := (fetchContributorsAux committers allProjects [] ∅).1
    unique_user_emails := (fetchContributorsAux committers allProjects [] ∅).2
    total_users := (fetchContributorsAux committers allProjects [] ∅).2.card }

/-- The union of the key sets of all per-project contributor dicts in the
output `projects` map. -/
def projectIdentityUnion (pd : Dict (Dict ContribValue)) : Finset String :=
  pd.foldl (fun acc pr => acc ∪ (dictKeys pr.2).toFinset) ∅

/-- The environment variables main reads. -/
structure PyEnv where
  gitlab_api_key : Option String
  gitlab_oauth_token : Option String

/-- The two config.ini entries main reads via get_config. -/
structure ConfigIni where
  apiKey : Option String
  oauthToken : Option String

/-- `os.environ.get(K) or get_config(section, key)` (lines 224 and 264): an
environment value that is absent or empty (falsy) falls through to config.ini;
a missing config key raises ValueError, modelled as `none`. -/
def envOrConfig (envVal cfgVal : Option String) : Option String :=
  match envVal with
  | some s => if s.isEmpty then cfgVal else some s
  | none => cfgVal

/-- An observable event of a run of main: a GitLab API operation (one event per
operation; each performs at least one HTTP request), or a raised configuration
error (ValueError from get_config) aborting the run. -/
inductive Ev where
  | net (operation : String)
  | cfgError
deriving DecidableEq

/-- The --action command-line choices (line 194). -/
inductive Action where
  | run_cx
  | fetch_contributors
deriving DecidableEq

/-- Event trace of main (lines 214-326): the API-key lookup comes first and its
failure aborts before any network call; get_groups is the first network call;
one get_group_projects call per group; the OAuth-token lookup for run_cx
happens only after group and project enumeration (line 264), and run_cx itself
makes no GitLab API call; fetch_contributors makes one get_recent_committers
call per project. -/
def mainEvents (env : PyEnv) (cfg : ConfigIni) (action : Action)
    (groups : List (Nat × String)) (groupProjects : Nat → List Project) : List Ev :=
  match envOrConfig env.gitlab_api_key cfg.apiKey with
  | none => [Ev.cfgError]
  | some _ =>
    Ev.net "get_groups" ::
      (if groups.isEmpty then []
       else
        groups.map (fun _ => Ev.net "get_group_projects") ++
          (match action with
           | Action.run_cx =>
             match envOrConfig env.gitlab_oauth_token cfg.oauthToken with
             | none => [Ev.cfgError]
             | some _ => []
           | Action.fetch_contributors =>
             (groups.flatMap (fun g => groupProjects g.1)).map
               (fun _ => Ev.net "get_recent_committers")))

/-! ## General lemmas about the embedded operations -/

/-- A request whose status is not in the forcelist is answered directly,
whatever the retry budget: one request, no retry. -/
theorem sessionGetAux_not_forcelist (responses : Nat → Nat × String) (r i : Nat)
    (h : (responses i).1 ∉ statusForcelist) :
    sessionGetAux responses r i =
      (SessionOutcome.response (responses i).1 (responses i).2, 1) := by
  cases r <;> simp [sessionGetAux, h]

/-- paginateAux over all-200 delivered pages returns the accumulator followed
by the concatenation of all items, in page order. -/
theorem paginateAux_all200 {α : Type} (pages : List (Page α)) (acc : List α)
    (h : ∀ p ∈ pages, p.status = 200) :
    paginateAux (pages.map Except.ok) acc = Except.ok (acc ++ (pages.map Page.items).flatten) := by
  induction pages generalizing acc with
  | nil => simp [paginateAux]
  | cons p rest ih =>
    have hp : p.status = 200 := h p (by simp)
    have hrest : ∀ q ∈ rest, q.status = 200 := fun q hq => h q (List.mem_cons_of_mem _ hq)
    simp [paginateAux, hp, ih (acc ++ p.items) hrest]

/-- paginateAux breaks on the first non-200 delivered page and returns what was
accumulated from the 200 pages before it, as a normal value. -/
theorem paginateAux_break {α : Type} (pre : List (Page α)) (p : Page α)
    (rest : List (Except Unit (Page α))) (acc : List α)
    (hpre : ∀ q ∈ pre, q.status = 200) (hp : p.status ≠ 200) :
    paginateAux (pre.map Except.ok ++ Except.ok p :: rest) acc =
      Except.ok (acc ++ (pre.map Page.items).flatten) := by
  induction pre generalizing acc with
  | nil => simp [paginateAux, hp]
  | cons q rest' ih =>
    have hq : q.status = 200 := hpre q (by simp)
    have hrest' : ∀ x ∈ rest', x.status = 200 := fun x hx => hpre x (List.mem_cons_of_mem _ hx)
    simp [paginateAux, hq, ih (acc ++ q.items) hrest']

/-- A session.get that raises (retries exhausted) aborts paginateAux: the
exception is uncaught, so no item list is returned at all. -/
theorem paginateAux_raise {α : Type} (pre : List (Page α))
    (rest : List (Except Unit (Page α))) (acc : List α)
    (hpre : ∀ q ∈ pre, q.status = 200) :
    paginateAux (pre.map Except.ok ++ Except.error () :: rest) acc = Except.error () := by
  induction pre generalizing acc with
  | nil => simp [paginateAux]
  | cons q rest' ih =>
    have hq : q.status = 200 := hpre q (by simp)
    have hrest' : ∀ x ∈ rest', x.status = 200 := fun x hx => hpre x (List.mem_cons_of_mem _ hx)
    simp [paginateAux, hq, ih (acc ++ q.items) hrest']

/-- Overwriting an existing dict entry keeps the key unchanged. -/
theorem fst_dictUpdate {V : Type} (p : String × V) (k : String) (v : V) :
    (if p.1 = k then (k, v) else p).1 = p.1 := by
  by_cases h : p.1 = k <;> simp [h]

/-- dictInsert adds exactly the inserted key to the key set. -/
theorem mem_dictKeys_dictInsert {V : Type} (m : Dict V) (k : String) (v : V) (a : String) :
    a ∈ dictKeys (dictInsert m k v) ↔ a ∈ dictKeys m ∨ a = k := by
  unfold dictInsert
  by_cases h : m.any (fun p => p.1 = k)
  · have hk : k ∈ dictKeys m := by
      obtain ⟨p, hp, hpk⟩ := List.any_eq_true.mp h
      simp only [decide_eq_true_eq] at hpk
      exact hpk ▸ List.mem_map_of_mem Prod.fst hp
    have hkeys : dictKeys (m.map (fun p => if p.1 = k then (k, v) else p)) = dictKeys m := by
      simp only [dictKeys, List.map_map]
      exact List.map_congr_left fun p _ => fst_dictUpdate p k v
    simp only [h, if_true, hkeys]
    constructor
    · exact Or.inl
    · rintro (ha | rfl)
      · exact ha
      · exact hk
  · simp [h, dictKeys]

/-- The run-wide unique set only grows along the per-project fold. -/
theorem unique_users_subset_foldl (emails : List String) (s : ProjAccum) :
    s.unique_users ⊆ (emails.foldl insertCommitter s).unique_users := by
  induction emails generalizing s with
  | nil => exact Finset.Subset.refl _
  | cons e rest ih =>
    exact Finset.Subset.trans (Finset.subset_insert e s.unique_users) (ih (insertCommitter s e))

/-- Every e-mail of the iteration list ends up in the unique set. -/
theorem mem_unique_users_foldl (emails : List String) (s : ProjAccum) (e : String)
    (he : e ∈ emails) :
    e ∈ (emails.foldl insertCommitter s).unique_users := by
  induction emails generalizing s with
  | nil => cases he
  | cons a rest ih =>
    rcases List.mem_cons.mp he with rfl | hmem
    · exact unique_users_subset_foldl rest (insertCommitter s e)
        (Finset.mem_insert_self e s.unique_users)
    · exact ih (insertCommitter s a) hmem

/-- The run-wide unique set only grows along the project loop. -/
theorem unique_users_subset_fetchAux (committers : Nat → List String)
    (projects : List Project) (pd : Dict (Dict ContribValue)) (uu : Finset String) :
    uu ⊆ (fetchContributorsAux committers projects pd uu).2 := by
  induction projects generalizing pd uu with
  | nil => exact Finset.Subset.refl _
  | cons pr rest ih =>
    by_cases h : (committers pr.id).isEmpty
    · simpa [fetchContributorsAux, h] using ih pd uu
    · have huu : uu ⊆ (processProject uu (committers pr.id)).2 :=
        unique_users_subset_foldl (committers pr.id) ⟨[], 0, uu⟩
      simpa [fetchContributorsAux, h] using
        Finset.Subset.trans huu (ih (dictInsert pd pr.name (processProject uu (committers pr.id)).1)
          (processProject uu (committers pr.id)).2)

/-- Every committer e-mail of every listed project reaches the final unique
set, whatever its content — there is no filtering by identity. -/
theorem mem_unique_users_fetchAux (committers : Nat → List String)
    (projects : List Project) (pd : Dict (Dict ContribValue)) (uu : Finset String)
    (pr : Project) (e : String) (hpr : pr ∈ projects) (he : e ∈ committers pr.id) :
    e ∈ (fetchContributorsAux committers projects pd uu).2 := by
  induction projects generalizing pd uu with
  | nil => cases hpr
  | cons q rest ih =>
    rcases List.mem_cons.mp hpr with rfl | hmem
    · have hne : ¬(committers pr.id).isEmpty := by
        cases hc : committers pr.id with
        | nil => rw [hc] at he; cases he
        | cons x xs => simp [hc]
      have hmem2 : e ∈ (processProject uu (committers pr.id)).2 :=
        mem_unique_users_foldl (committers pr.id) ⟨[], 0, uu⟩ e he
      simpa [fetchContributorsAux, hne] using
        unique_users_subset_fetchAux committers rest
          (dictInsert pd pr.name (processProject uu (committers pr.id)).1)
          (processProject uu (committers pr.id)).2 hmem2
    · by_cases h : (committers q.id).isEmpty
      · simpa [fetchContributorsAux, h] using ih pd uu hmem
      · simpa [fetchContributorsAux, h] using
          ih (dictInsert pd q.name (processProject uu (committers q.id)).1)
            (processProject uu (committers q.id)).2 hmem

/-- Key membership in the projects dict built by the project loop. -/
theorem mem_keys_fetchAux (committers : Nat → List String) (projects : List Project)
    (pd : Dict (Dict ContribValue)) (uu : Finset String) (a : String) :
    a ∈ dictKeys (fetchContributorsAux committers projects pd uu).1 ↔
      a ∈ dictKeys pd ∨ ∃ pr ∈ projects, pr.name = a ∧ committers pr.id ≠ [] := by
  induction projects generalizing pd uu with
  | nil => simp [fetchContributorsAux]
  | cons q rest ih =>
    by_cases h : (committers q.id).isEmpty
    · have hq : committers q.id = [] := by simpa using h
      rw [show fetchContributorsAux committers (q :: rest) pd uu =
            fetchContributorsAux committers rest pd uu by simp [fetchContributorsAux, h]]
      rw [ih pd uu]
      simp only [List.mem_cons]
      constructor
      · rintro (ha | ⟨pr, hpr, hname, hne⟩)
        · exact Or.inl ha
        · exact Or.inr ⟨pr, Or.inr hpr, hname, hne⟩
      · rintro (ha | ⟨pr, hpr | hpr, hname, hne⟩)
        · exact Or.inl ha
        · exact absurd (hpr ▸ hq) hne
        · exact Or.inr ⟨pr, hpr, hname, hne⟩
    · have hq : committers q.id ≠ [] := fun hc => h (by simp [hc])
      rw [show fetchContributorsAux committers (q :: rest) pd uu =
            fetchContributorsAux committers rest
              (dictInsert pd q.name (processProject uu (committers q.id)).1)
              (processProject uu (committers q.id)).2 by simp [fetchContributorsAux, h]]
      rw [ih, mem_dictKeys_dictInsert]
      simp only [List.mem_cons]
      constructor
      · rintro ((ha | rfl) | ⟨pr, hpr, hname, hne⟩)
        · exact Or.inl ha
        · exact Or.inr ⟨q, Or.inl rfl, rfl, hq⟩
        · exact Or.inr ⟨pr, Or.inr hpr, hname, hne⟩
      · rintro (ha | ⟨pr, hpr | hpr, hname, hne⟩)
        · exact Or.inl (Or.inl ha)
        · exact Or.inl (Or.inr (hpr ▸ hname.symm))
        · exact Or.inr ⟨pr, hpr, hname, hne⟩

/-! ## Claims -/

/-- C1: the claim says `total_users` equals the cardinality of the union of the
key sets of the per-project contributor maps.  The code stores the running
counter under the extra key "unique_contributors" inside every non-empty
per-project map (main, line 302), so with one project and one committer the
union of the key sets has cardinality 2 while total_users is 1: the code
contradicts the invariant its own spec calls the intended behaviour. -/
theorem C1_stored_counter_breaks_total_users :
    (fetch_contributors [⟨1, "g/p"⟩] (fun _ => ["a@b"])).total_users = 1 ∧
    projectIdentityUnion (fetch_contributors [⟨1, "g/p"⟩] (fun _ => ["a@b"])).projects =
      {"a@b", "unique_contributors"} ∧
    (projectIdentityUnion (fetch_contributors [⟨1, "g/p"⟩] (fun _ => ["a@b"])).projects).card =
      2 := by
  decide

/-- C2: the claim says inserting the same (project, identity) pair twice into
the aggregation step yields the same per-project map and no stored counter
drifts.  The loop body (main, lines 295-302) increments
unique_proj_contributors on every insertion and stores it in the map, so a
second insertion of the same identity changes the stored "unique_contributors"
entry from 1 to 2: the maps differ. -/
theorem C2_reinsertion_counter_drift :
    (insertCommitter (insertCommitter ⟨[], 0, ∅⟩ "a@b") "a@b").project_contributors ≠
      (insertCommitter ⟨[], 0, ∅⟩ "a@b").project_contributors ∧
    dictLookup (insertCommitter ⟨[], 0, ∅⟩ "a@b").project_contributors "unique_contributors" =
      some (ContribValue.count 1) ∧
    dictLookup (insertCommitter (insertCommitter ⟨[], 0, ∅⟩ "a@b") "a@b").project_contributors
      "unique_contributors" = some (ContribValue.count 2) := by
  decide

/-- C3 counterexample: the claim says an identity matching the bot-naming
convention never appears in any per-project map nor in the unique set.  The
code has no bot filter at all: a committer e-mail carrying the service-account
marker "_bot" lands both in the project's contributor map and in the
unique-user set. -/
theorem C3_counterexample :
    "project_42_bot@noreply.example.com" ∈
      (fetch_contributors [⟨1, "g/p"⟩]
        (fun _ => ["project_42_bot@noreply.example.com"])).unique_user_emails ∧
    (dictLookup (fetch_contributors [⟨1, "g/p"⟩]
        (fun _ => ["project_42_bot@noreply.example.com"])).projects "g/p").map dictKeys =
      some ["project_42_bot@noreply.example.com", "unique_contributors"] := by
  decide

/-- C3 amended: no bot-identity exclusion is performed anywhere: every
committer e-mail of every listed project is added to the unique-user set
unconditionally, whatever its content (and, as the counterexample shows
concretely, it also becomes a key of the project's contributor map). -/
theorem C3_no_bot_exclusion (projects : List Project) (committers : Nat → List String)
    (pr : Project) (e : String) (hpr : pr ∈ projects) (he : e ∈ committers pr.id) :
    e ∈ (fetch_contributors projects committers).unique_user_emails :=
  mem_unique_users_fetchAux committers projects [] ∅ pr e hpr he

/-- Witness for C3: a bot-marked e-mail of a listed project is in the final
unique set. -/
theorem C3_no_bot_exclusion_witness :
    (⟨1, "g/p"⟩ : Project) ∈ ([⟨1, "g/p"⟩] : List Project) ∧
    "svc_bot@x" ∈ ["svc_bot@x"] ∧
    "svc_bot@x" ∈
      (fetch_contributors [⟨1, "g/p"⟩] (fun _ => ["svc_bot@x"])).unique_user_emails :=
  ⟨by decide, by decide,
   C3_no_bot_exclusion [⟨1, "g/p"⟩] (fun _ => ["svc_bot@x"]) ⟨1, "g/p"⟩ "svc_bot@x"
     (by decide) (by decide)⟩

/-- C4 counterexample: the claim says that on 503 for every attempt the fetch
fails having made exactly 5 attempts.  Retry(total=5) allows 5 retries AFTER
the initial request, so the session makes 6 requests before raising. -/
theorem C4_counterexample :
    sessionGet (fun _ => (503, "unavailable")) = (SessionOutcome.retryError, 6) ∧
    (sessionGet (fun _ => (503, "unavailable"))).2 ≠ 5 := by
  decide

/-- C4 amended: the session retries only on the forcelist statuses 429, 502,
503, 504 (any other status is answered after a single request); 503 on the
first 4 attempts followed by 200 succeeds on the 5th request; 503 on every
attempt raises RetryError after exactly 6 requests (one initial plus 5
retries); the backoff delays with factor 1 are monotonically increasing and
capped at BACKOFF_MAX. -/
theorem C4_retry_policy_amended :
    (∀ responses : Nat → Nat × String, (responses 0).1 ∉ statusForcelist →
      sessionGet responses = (SessionOutcome.response (responses 0).1 (responses 0).2, 1)) ∧
    sessionGet (fun k => if k < 4 then (503, "u") else (200, "ok")) =
      (SessionOutcome.response 200 "ok", 5) ∧
    sessionGet (fun _ => (503, "u")) = (SessionOutcome.retryError, 6) ∧
    (∀ r : Nat, 1 ≤ r → backoffDelay r ≤ backoffDelay (r + 1) ∧ backoffDelay r ≤ BACKOFF_MAX) := by
  refine ⟨fun responses h => sessionGetAux_not_forcelist responses retryTotal 0 h,
    by decide, by decide, fun r _ => ⟨?_, min_le_left _ _⟩⟩
  exact min_le_min (le_refl BACKOFF_MAX)
    (Nat.mul_le_mul_left backoffFactor (Nat.pow_le_pow_right (by norm_num) (by omega)))

/-- Witness for C4 amended: a 404 is answered after one request; the first
backoff delay is below the second and below the cap. -/
theorem C4_retry_policy_amended_witness :
    sessionGet (fun _ => (404, "nf")) = (SessionOutcome.response 404 "nf", 1) ∧
    backoffDelay 1 ≤ backoffDelay 2 ∧ backoffDelay 1 ≤ BACKOFF_MAX :=
  ⟨C4_retry_policy_amended.1 (fun _ => (404, "nf")) (by decide),
   (C4_retry_policy_amended.2.2.2 1 (by decide)).1,
   (C4_retry_policy_amended.2.2.2 1 (by decide)).2⟩

/-- C5: for a server delivering K pages (any K ≥ 0) of at most P items each,
all with status 200, paginate returns exactly the concatenation of the pages'
items in page order. -/
theorem C5_pagination_completeness {α : Type} (pages : List (Page α)) (P : Nat)
    (hstatus : ∀ p ∈ pages, p.status = 200) (_hsize : ∀ p ∈ pages, p.items.length ≤ P) :
    paginate (pages.map Except.ok) = Except.ok (pages.map Page.items).flatten := by
  simpa [paginate] using paginateAux_all200 pages [] hstatus

/-- Witness for C5: two 200 pages concatenate in order. -/
theorem C5_pagination_completeness_witness :
    paginate [Except.ok { status := 200, text := "", items := ["a", "b"] },
        Except.ok { status := 200, text := "", items := ["c"] }] =
      Except.ok ["a", "b", "c"] :=
  C5_pagination_completeness
    [{ status := 200, text := "", items := ["a", "b"] },
     { status := 200, text := "", items := ["c"] }] 2 (by decide) (by decide)

/-- C6 counterexample: the claim says every paginated fetch loop stops on a
page with zero items.  GitLabClient.paginate has no zero-items test: an empty
200 page whose response still carries a next link is walked through and the
following page's items are returned, so the result is not the empty list the
claimed termination would produce. -/
theorem C6_counterexample :
    paginate [Except.ok { status := 200, text := "", items := ([] : List String) },
        Except.ok { status := 200, text := "", items := ["late-item"] }] =
      Except.ok ["late-item"] ∧
    paginate [Except.ok { status := 200, text := "", items := ([] : List String) },
        Except.ok { status := 200, text := "", items := ["late-item"] }] ≠
      Except.ok ([] : List String) := by
  refine ⟨rfl, fun h => ?_⟩
  have h2 : (Except.ok ["late-item"] : Except Unit (List String)) = Except.ok [] := h
  injection h2 with h3
  exact absurd h3 (by decide)

/-- C6 amended: only the commit-fetch loop of get_recent_committers stops on a
page with zero items; GitLabClient.paginate does not — it skips an empty 200
page that carries a next link and continues, stopping only when the next link
is absent (or on a non-200 status). -/
theorem C6_amended_termination :
    (∀ (rest : List CommitPage) (acc : Finset String),
      getRecentCommittersAux ({ status := 200, commits := [] } :: rest) acc = acc) ∧
    (∀ (rest : List (Except Unit (Page String))) (acc : List String),
      paginateAux (Except.ok { status := 200, text := "", items := [] } :: rest) acc =
        paginateAux rest acc) ∧
    (∀ (text : String) (items acc : List String),
      paginateAux [Except.ok { status := 200, text := text, items := items }] acc =
        Except.ok (acc ++ items)) := by
  refine ⟨fun rest acc => ?_, fun rest acc => ?_, fun text items acc => ?_⟩ <;>
    simp [getRecentCommittersAux, paginateAux]

/-- C7 counterexample: the claim says a failed fetch surfaces a FetchFailed
error carrying the last status code and body, propagated unchanged.  On a 404,
paginate logs and returns the (empty) collected items as a normal success, and
GitLabClient.get catches the raise_for_status exception and returns None: no
error, status or body reaches the caller. -/
theorem C7_counterexample :
    paginate [Except.ok (⟨404, "404 Project Not Found", []⟩ : Page String)] =
      Except.ok [] ∧
    GitLabClient.get (SessionOutcome.response 404 "404 Project Not Found") = none := by
  exact ⟨rfl, rfl⟩

/-- C7 amended: fetch failures are masked, not surfaced: paginate returns the
items collected so far as a normal value when a page has a non-200 status;
when the session raises after exhausting retries the exception propagates
uncaught out of paginate (no FetchFailed value, and the run is not continued);
and GitLabClient.get returns None for every 4xx/5xx response and for a raised
RetryError, discarding status and body. -/
theorem C7_fetch_errors_masked :
    (∀ (pre : List (Page String)) (p : Page String)
        (rest : List (Except Unit (Page String))),
      (∀ q ∈ pre, q.status = 200) → p.status ≠ 200 →
      paginate (pre.map Except.ok ++ Except.ok p :: rest) =
        Except.ok (pre.map Page.items).flatten) ∧
    (∀ (pre : List (Page String)) (rest : List (Except Unit (Page String))),
      (∀ q ∈ pre, q.status = 200) →
      paginate (pre.map Except.ok ++ Except.error () :: rest) = Except.error ()) ∧
    (∀ (s : Nat) (b : String), raiseForStatus s = true →
      GitLabClient.get (SessionOutcome.response s b) = none) ∧
    GitLabClient.get SessionOutcome.retryError = none := by
  refine ⟨fun pre p rest hpre hp => ?_, fun pre rest hpre => ?_,
    fun s b hs => ?_, rfl⟩
  · simpa [paginate] using paginateAux_break pre p rest [] hpre hp
  · simpa [paginate] using paginateAux_raise pre rest [] hpre
  · simp [GitLabClient.get, hs]

/-- Witness for C7 amended: a 500 page yields a silent empty success and get
masks the same response. -/
theorem C7_fetch_errors_masked_witness :
    paginate [Except.ok { status := 500, text := "boom", items := ([] : List String) }] =
      Except.ok ([] : List String) ∧
    GitLabClient.get (SessionOutcome.response 500 "boom") = none :=
  ⟨C7_fetch_errors_masked.1 [] { status := 500, text := "boom", items := [] } []
      (fun q hq => absurd hq (by simp)) (by decide),
   C7_fetch_errors_masked.2.2.1 500 "boom" (by decide)⟩

/-- C8 counterexample: the claim says a required credential missing from both
the environment and config.ini aborts before any network call.  With the API
key present but the run_cx OAuth token missing from both sources, main calls
get_groups and get_group_projects first and only then raises the configuration
error (line 264). -/
theorem C8_counterexample :
    mainEvents ⟨some "k", none⟩ ⟨none, none⟩ Action.run_cx [(1, "grp")]
      (fun _ => [⟨1, "grp/p"⟩]) =
      [Ev.net "get_groups", Ev.net "get_group_projects", Ev.cfgError] := by
  decide

/-- C8 amended: the GitLab API key is looked up before any network call, and
its absence from both the environment and config.ini aborts the run with the
configuration error as the only event; but the run_cx OAuth token is looked up
only after group and project enumeration, so its absence raises the
configuration error after the network calls. -/
theorem C8_config_error_timing :
    (∀ (env : PyEnv) (cfg : ConfigIni) (action : Action) (groups : List (Nat × String))
        (gp : Nat → List Project),
      envOrConfig env.gitlab_api_key cfg.apiKey = none →
      mainEvents env cfg action groups gp = [Ev.cfgError]) ∧
    (∀ (env : PyEnv) (cfg : ConfigIni) (groups : List (Nat × String))
        (gp : Nat → List Project),
      envOrConfig env.gitlab_api_key cfg.apiKey ≠ none →
      envOrConfig env.gitlab_oauth_token cfg.oauthToken = none →
      groups ≠ [] →
      mainEvents env cfg Action.run_cx groups gp =
        Ev.net "get_groups" ::
          (groups.map (fun _ => Ev.net "get_group_projects") ++ [Ev.cfgError])) := by
  constructor
  · intro env cfg action groups gp h
    simp [mainEvents, h]
  · intro env cfg groups gp h1 h2 h3
    obtain ⟨k, hk⟩ := Option.ne_none_iff_exists'.mp h1
    have hne : groups.isEmpty = false := by
      cases groups with
      | nil => exact absurd rfl h3
      | cons g gs => rfl
    simp [mainEvents, hk, h2, hne]

/-- Witness for C8 amended: both halves at concrete inputs. -/
theorem C8_config_error_timing_witness :
    mainEvents ⟨none, none⟩ ⟨none, none⟩ Action.fetch_contributors [] (fun _ => []) =
      [Ev.cfgError] ∧
    mainEvents ⟨some "k", none⟩ ⟨none, none⟩ Action.run_cx [(1, "grp")] (fun _ => []) =
      Ev.net "get_groups" ::
        (([(1, "grp")] : List (Nat × String)).map (fun _ => Ev.net "get_group_projects") ++
          [Ev.cfgError]) :=
  ⟨C8_config_error_timing.1 ⟨none, none⟩ ⟨none, none⟩ Action.fetch_contributors [] (fun _ => [])
      rfl,
   C8_config_error_timing.2 ⟨some "k", none⟩ ⟨none, none⟩ [(1, "grp")] (fun _ => [])
      (by decide) rfl (by decide)⟩

/-- C9: when the i-th page of a paginated fetch is delivered with a non-200
status, paginate returns the concatenation of the items of the preceding 200
pages as a normal successful value, raising no error. -/
theorem C9_non200_returns_silent_partial {α : Type} (pre : List (Page α)) (p : Page α)
    (rest : List (Except Unit (Page α)))
    (hpre : ∀ q ∈ pre, q.status = 200) (hp : p.status ≠ 200) :
    paginate (pre.map Except.ok ++ Except.ok p :: rest) =
      Except.ok (pre.map Page.items).flatten := by
  simpa [paginate] using paginateAux_break pre p rest [] hpre hp

/-- Witness for C9: a 200 page followed by a 500 page yields the first page's
items as a normal success; the later page is never reached. -/
theorem C9_non200_returns_silent_partial_witness :
    paginate [Except.ok { status := 200, text := "", items := ["a"] },
        Except.ok { status := 500, text := "boom", items := ["zz"] },
        Except.ok { status := 200, text := "", items := ["never"] }] =
      Except.ok ["a"] :=
  C9_non200_returns_silent_partial [{ status := 200, text := "", items := ["a"] }]
    { status := 500, text := "boom", items := ["zz"] }
    [Except.ok { status := 200, text := "", items := ["never"] }] (by decide) (by decide)

/-- C10: a project name is a key of the output projects map exactly when some
listed project bears that name and has a non-empty recent-committer set; in
particular a project whose committer set is empty (no commits in the window,
or a failed fetch yielding the empty set) contributes no entry. -/
theorem C10_only_nonempty_projects_appear (projects : List Project)
    (committers : Nat → List String) (a : String) :
    a ∈ dictKeys (fetch_contributors projects committers).projects ↔
      ∃ pr ∈ projects, pr.name = a ∧ committers pr.id ≠ [] := by
  simpa [fetch_contributors, dictKeys] using mem_keys_fetchAux committers projects [] ∅ a

end SCMCount
